import Mathlib

/-!
Verification development for `jack_midi_cmd.c` (JACK MIDI Commander).

Shallow embedding of the core of the program:
- the bounded single-producer/single-consumer event queue
  (`event_queue`, `queued_events_start`, `queued_events_end`,
  `queue_event`, and the drain loop of the `process` callback);
- the stdin command parser `parse_message`, including faithful models of
  the `strncmp` prefix tests and of each `sscanf` format it uses.

Machine integers are modelled as `Nat`/`Int` with explicit `% 256`
where the C code wraps, and C bitwise masks (`& 0xff`, `& 0x7f`) as
`Int.land`, which agrees with two-complement `&` on `int`.
-/

/-- `JACK_MIDI_QUEUE_SIZE` from the source: capacity of the ring buffer. -/
def JACK_MIDI_QUEUE_SIZE : Nat := 256

/-- `my_midi_event_t`: `time` is the frame offset, `size` the byte count,
`buffer` the bytes actually written by the parser (the C struct has a
fixed 16-byte array; we model the initialized portion, of length `size`). -/
structure MyMidiEvent where
  time : Nat
  size : Nat
  buffer : List Int
deriving DecidableEq, Repr

/-- The shared queue state: the global array `event_queue` together with the
producer index `queued_events_start` and the consumer index
`queued_events_end` (both C ints, always in `[0, 256)` in the program). -/
structure QueueState where
  event_queue : Nat → MyMidiEvent
  queued_events_start : Nat
  queued_events_end : Nat

/-- `queue_event`: if the ring is full (advancing the write index would
collide with the read index) it returns without mutating anything;
otherwise it copies the event into the slot at the write index and
advances the write index modulo the capacity. -/
def queue_event (q : QueueState) (me : MyMidiEvent) : QueueState :=
  if (q.queued_events_start + 1) % JACK_MIDI_QUEUE_SIZE = q.queued_events_end then
    q
  else
    { q with
      event_queue := Function.update q.event_queue q.queued_events_start me,
      queued_events_start := (q.queued_events_start + 1) % JACK_MIDI_QUEUE_SIZE }

/-- The drain loop of the `process` callback:
`while (queued_events_end != queued_events_start) { write slot; advance }`.
The first component is the sequence of events written (in order) into the
cycle output buffer after it was cleared; the second is the final queue
state. Fuel `JACK_MIDI_QUEUE_SIZE` bounds the iteration count; it is
sufficient whenever both indices are below the capacity (proved below). -/
def drainLoop : Nat → QueueState → List MyMidiEvent × QueueState
  | 0, q => ([], q)
  | fuel + 1, q =>
    if q.queued_events_end = q.queued_events_start then ([], q)
    else
      let e := q.event_queue q.queued_events_end
      let q2 : QueueState :=
        { q with queued_events_end := (q.queued_events_end + 1) % JACK_MIDI_QUEUE_SIZE }
      let p := drainLoop fuel q2
      (e :: p.1, p.2)

/-- The realtime callback `process`: clears the cycle output buffer, then
drains the queue, writing each event. The returned list is the full content
of the output buffer at the end of the cycle (empty list = cleared, nothing
written). -/
def process (q : QueueState) : List MyMidiEvent × QueueState :=
  drainLoop JACK_MIDI_QUEUE_SIZE q

/-- Number of queued events: distance from the read index to the write
index, modulo the capacity. -/
def queueDist (q : QueueState) : Nat :=
  (q.queued_events_start + JACK_MIDI_QUEUE_SIZE - q.queued_events_end) % JACK_MIDI_QUEUE_SIZE

/-- Logical content of the queue: the slots from the read index (inclusive)
to the write index (exclusive), in FIFO order. -/
def queueList (q : QueueState) : List MyMidiEvent :=
  (List.range (queueDist q)).map
    (fun i => q.event_queue ((q.queued_events_end + i) % JACK_MIDI_QUEUE_SIZE))

/-- A zero-initialized event, as in the zero-initialized global array. -/
def zeroEvent : MyMidiEvent := ⟨0, 0, []⟩

/-- The initial program state of the queue: zeroed array, both indices 0. -/
def init_queue : QueueState := ⟨fun _ => zeroEvent, 0, 0⟩

/- ===================== the command parser ===================== -/

/-- C `isspace` on the characters that can occur in a text line. -/
def isSpaceChar (c : Char) : Bool :=
  c == ' ' || c == '\t' || c == '\n' || c == '\x0b' || c == '\x0c' || c == '\r'

/-- Hexadecimal digit test, as accepted by `%x` and `0x`-prefixed `%i`. -/
def isHexDigitC (c : Char) : Bool :=
  c.isDigit || ('a' ≤ c && c ≤ 'f') || ('A' ≤ c && c ≤ 'F')

/-- Value of a hexadecimal digit. -/
def hexDigitVal (c : Char) : Nat :=
  if c.isDigit then c.toNat - '0'.toNat
  else if 'a' ≤ c && c ≤ 'f' then c.toNat - 'a'.toNat + 10
  else c.toNat - 'A'.toNat + 10

/-- Octal digit test. -/
def isOctDigitC (c : Char) : Bool := '0' ≤ c && c ≤ '7'

/-- Value of a decimal or octal digit. -/
def decDigitVal (c : Char) : Nat := c.toNat - '0'.toNat

/-- Accumulate digits of the given base; stops at the first non-digit. -/
def scanDigitsAux (isD : Char → Bool) (vOf : Char → Nat) (base : Nat) :
    List Char → Nat → Nat × List Char
  | [], acc => (acc, [])
  | c :: r, acc =>
    if isD c then scanDigitsAux isD vOf base r (acc * base + vOf c)
    else (acc, c :: r)

/-- Scan one or more digits of the given base; fails with no digit. -/
def scanDigits1 (isD : Char → Bool) (vOf : Char → Nat) (base : Nat)
    (s : List Char) : Option (Nat × List Char) :=
  match s with
  | c :: r => if isD c then some (scanDigitsAux isD vOf base r (vOf c)) else none
  | [] => none

/-- Optional sign, as consumed by `strtol`-style conversions.
Returns `true` when the value is negated. -/
def scanSign : List Char → Bool × List Char
  | '-' :: r => (true, r)
  | '+' :: r => (false, r)
  | s => (false, s)

/-- Apply a scanned sign to a digit-sequence value. -/
def applySign (neg : Bool) (n : Nat) : Int :=
  if neg then -(n : Int) else (n : Int)

/-- The `%x` conversion of `sscanf`: skip white space, optional sign,
optional `0x`/`0X` prefix (only when followed by a hex digit), then one or
more hex digits. -/
def scanHex (s : List Char) : Option (Int × List Char) :=
  let s1 := s.dropWhile isSpaceChar
  let p := scanSign s1
  let s3 :=
    match p.2 with
    | '0' :: x :: r =>
      if (x == 'x' || x == 'X') &&
         (match r with | d :: _ => isHexDigitC d | [] => false) then r
      else p.2
    | _ => p.2
  match scanDigits1 isHexDigitC hexDigitVal 16 s3 with
  | some (n, rest) => some (applySign p.1 n, rest)
  | none => none

/-- The `%i` conversion of `sscanf`: skip white space, optional sign, then
a C integer literal: `0x`-prefixed hex, `0`-prefixed octal (a lone `0` is
octal zero), or decimal. -/
def scanCInt (s : List Char) : Option (Int × List Char) :=
  let s1 := s.dropWhile isSpaceChar
  let p := scanSign s1
  match p.2 with
  | '0' :: rest =>
    match rest with
    | x :: r2 =>
      if (x == 'x' || x == 'X') &&
         (match r2 with | d :: _ => isHexDigitC d | [] => false) then
        match scanDigits1 isHexDigitC hexDigitVal 16 r2 with
        | some (n, rest2) => some (applySign p.1 n, rest2)
        | none => none
      else
        match scanDigitsAux isOctDigitC decDigitVal 8 rest 0 with
        | (n, rest2) => some (applySign p.1 n, rest2)
    | [] => some (applySign p.1 0, [])
  | _ =>
    match scanDigits1 Char.isDigit decDigitVal 10 p.2 with
    | some (n, rest) => some (applySign p.1 n, rest)
    | none => none

/-- An ordinary (non white space) format character: matches exactly the
next input character. -/
def scanLit (c : Char) : List Char → Option (List Char)
  | d :: r => if d == c then some r else none
  | [] => none

/-- `strncmp(msg, lit, strlen(lit)) == 0` for a NUL-free literal `lit`:
true iff `msg` starts with the characters of `lit` (a shorter `msg` ends
in NUL, which mismatches the remaining literal characters). -/
def strncmp0 : List Char → List Char → Bool
  | _, [] => true
  | [], _ :: _ => false
  | m :: ms, l :: ls => m == l && strncmp0 ms ls

/-- `sscanf(msg, ". %x %x %x\n", ...) == 3`: returns the three values when
all three conversions succeed (the trailing `\n` is a white space directive
and never fails, so it does not affect the count). -/
def sscanf_dot_xxx (msg : List Char) : Option (Int × Int × Int) :=
  match scanLit '.' msg with
  | none => none
  | some r0 =>
    let r1 := r0.dropWhile isSpaceChar
    match scanHex r1 with
    | none => none
    | some (a, r2) =>
      let r3 := r2.dropWhile isSpaceChar
      match scanHex r3 with
      | none => none
      | some (b, r4) =>
        let r5 := r4.dropWhile isSpaceChar
        match scanHex r5 with
        | none => none
        | some (c, _) => some (a, b, c)

/-- Shared tail `" %i %i\n"` of the two-integer formats. -/
def scanTwoInts (s : List Char) : Option (Int × Int) :=
  let r1 := s.dropWhile isSpaceChar
  match scanCInt r1 with
  | none => none
  | some (a, r2) =>
    let r3 := r2.dropWhile isSpaceChar
    match scanCInt r3 with
    | none => none
    | some (b, _) => some (a, b)

/-- `sscanf(msg, "CC %i %i\n", ...) == 2`. -/
def sscanf_CC (msg : List Char) : Option (Int × Int) :=
  match scanLit 'C' msg with
  | none => none
  | some r =>
    match scanLit 'C' r with
    | none => none
    | some r2 => scanTwoInts r2

/-- `sscanf(msg, "N %i %i\n", ...) == 2`. -/
def sscanf_N (msg : List Char) : Option (Int × Int) :=
  match scanLit 'N' msg with
  | none => none
  | some r => scanTwoInts r

/-- `sscanf(msg, "n %i %i\n", ...) == 2`. -/
def sscanf_n (msg : List Char) : Option (Int × Int) :=
  match scanLit 'n' msg with
  | none => none
  | some r => scanTwoInts r

/-- The single `%i` of `sscanf(msg, "2 %i\n", &param[0])`: the value when
the conversion succeeds. The C call returns 1 on success, 0 otherwise. -/
def sscanf_fmt2 (msg : List Char) : Option Int :=
  match scanLit '2' msg with
  | none => none
  | some r =>
    match scanCInt (r.dropWhile isSpaceChar) with
    | some (v, _) => some v
    | none => none

/-- The single `%i` of `sscanf(msg, "1 %i\n", &param[0])`. -/
def sscanf_fmt1 (msg : List Char) : Option Int :=
  match scanLit '1' msg with
  | none => none
  | some r =>
    match scanCInt (r.dropWhile isSpaceChar) with
    | some (v, _) => some v
    | none => none

/-- The `Outcome` classification of a parsed line (spec section 4.2).
The code never produces `Noop`. -/
inductive Outcome where
  | Event
  | Exit
  | Reconnect
  | Help
  | Invalid
  | Noop
deriving DecidableEq, Repr

/-- Observable effect of one `parse_message` call: the returned int, whether
`client_state` was set to `Exit`, the event passed to `queue_event` (if
any), which diagnostic was printed, and the outcome classification. -/
structure ParseEffect where
  retval : Int
  setExit : Bool
  queued : Option MyMidiEvent
  printedHelp : Bool
  printedInvalid : Bool
  outcome : Outcome
deriving DecidableEq, Repr

/-- The `THREEBYTES(A,B,C)` macro body: a 3-byte event with `time = 0`,
`buffer[0] = A & 0xff`, `buffer[1] = B & 0x7f`, `buffer[2] = C & 0x7f`
(the macro then calls `queue_event`; the caller records that in `queued`). -/
def THREEBYTES (a b c : Int) : MyMidiEvent :=
  ⟨0, 3, [Int.land a 0xff, Int.land b 0x7f, Int.land c 0x7f]⟩

/-- `parse_message`. The branch for format `"2 %i\n"` compares the count
(at most 1, since the format has a single conversion) with 2; were it ever
taken, `event.buffer[1]` would read the indeterminate cell `param[1]`,
modelled by the extra argument `param1_indet`. -/
def parse_message (param1_indet : Int) (msg : List Char) : ParseEffect :=
  if strncmp0 msg ['e', 'x', 'i', 't'] then
    ⟨0, true, none, false, false, .Exit⟩
  else if strncmp0 msg ['r', 'e', 'c', 'o', 'n', 'n', 'e', 'c', 't'] then
    ⟨1, false, none, false, false, .Reconnect⟩
  else if strncmp0 msg ['h', 'e', 'l', 'p'] then
    ⟨0, false, none, true, false, .Help⟩
  else match sscanf_dot_xxx msg with
  | some (a, b, c) => ⟨0, false, some (THREEBYTES a b c), false, false, .Event⟩
  | none =>
    match sscanf_CC msg with
    | some (a, b) => ⟨0, false, some (THREEBYTES 0xb0 a b), false, false, .Event⟩
    | none =>
      match sscanf_N msg with
      | some (a, b) => ⟨0, false, some (THREEBYTES 0x90 a b), false, false, .Event⟩
      | none =>
        match sscanf_n msg with
        | some (a, b) => ⟨0, false, some (THREEBYTES 0x80 a b), false, false, .Event⟩
        | none =>
          if 2 = (match sscanf_fmt2 msg with | some _ => 1 | none => 0) then
            ⟨0, false,
              some ⟨0, 2, [Int.land ((sscanf_fmt2 msg).getD 0) 0xff, Int.land param1_indet 0xff]⟩,
              false, false, .Event⟩
          else
            match sscanf_fmt1 msg with
            | some v => ⟨0, false, some ⟨0, 1, [Int.land v 0xff]⟩, false, false, .Event⟩
            | none => ⟨0, false, none, false, true, .Invalid⟩

/-- The queue interaction of the control loop for one parsed line: the
event recorded in the effect (if any) is what `queue_event` receives. -/
def apply_queue (q : QueueState) (eff : ParseEffect) : QueueState :=
  match eff.queued with
  | some e => queue_event q e
  | none => q

/- ===================== concrete states for instantiation ===================== -/

/-- A sample 1-byte event. -/
def ev_a : MyMidiEvent := ⟨0, 1, [1]⟩

/-- A sample 3-byte event. -/
def ev_b : MyMidiEvent := ⟨0, 3, [0xb0, 1, 2]⟩

/-- A full queue: write index one slot (mod 256) behind the read index. -/
def q_full : QueueState := ⟨fun _ => zeroEvent, 255, 0⟩

/- ===================== queue lemmas ===================== -/

/-- One drain iteration on an empty queue stops immediately. -/
theorem drainLoop_empty (fuel : Nat) (q : QueueState)
    (h : q.queued_events_end = q.queued_events_start) :
    drainLoop fuel q = ([], q) := by
  cases fuel with
  | zero => rfl
  | succ n => simp [drainLoop, h]

/- ===================== claims ===================== -/

/-- C7: an invocation of the realtime callback `process` on an empty queue
(read index equal to write index) leaves the output buffer cleared with no
event bytes written (the write list is empty) and both queue indices
unchanged. -/
theorem process_empty_queue_silent (q : QueueState)
    (h : q.queued_events_end = q.queued_events_start) :
    process q = ([], q) :=
  drainLoop_empty JACK_MIDI_QUEUE_SIZE q h

/-- Witness for C7 at the initial queue state. -/
theorem process_empty_queue_silent_witness :
    init_queue.queued_events_end = init_queue.queued_events_start
    ∧ process init_queue = ([], init_queue) :=
  ⟨rfl, process_empty_queue_silent init_queue rfl⟩

/-- C2: enqueue on a full queue (`(write+1) mod 256 = read`) is a no-op
leaving the whole queue state unchanged; in every other state `queue_event`
copies the event into the slot at the write index, leaves every other slot
and the read index unchanged, and advances the write index by 1 mod 256. -/
theorem queue_event_full_noop_else_write_advance (q : QueueState) (me : MyMidiEvent) :
    ((q.queued_events_start + 1) % JACK_MIDI_QUEUE_SIZE = q.queued_events_end →
      queue_event q me = q)
    ∧ ((q.queued_events_start + 1) % JACK_MIDI_QUEUE_SIZE ≠ q.queued_events_end →
      (queue_event q me).event_queue q.queued_events_start = me
      ∧ (∀ i, i ≠ q.queued_events_start → (queue_event q me).event_queue i = q.event_queue i)
      ∧ (queue_event q me).queued_events_start = (q.queued_events_start + 1) % JACK_MIDI_QUEUE_SIZE
      ∧ (queue_event q me).queued_events_end = q.queued_events_end) := by
  constructor
  · intro h
    simp [queue_event, h]
  · intro h
    refine ⟨?_, ?_, ?_, ?_⟩ <;>
      simp [queue_event, h, Function.update]
    intro i hi
    simp [hi]

/-- Witness for C2: a full queue rejects without mutation, a non-full queue
stores the event at the write index. -/
theorem queue_event_full_noop_else_write_advance_witness :
    ((q_full.queued_events_start + 1) % JACK_MIDI_QUEUE_SIZE = q_full.queued_events_end
      ∧ queue_event q_full ev_a = q_full)
    ∧ ((init_queue.queued_events_start + 1) % JACK_MIDI_QUEUE_SIZE ≠ init_queue.queued_events_end
      ∧ (queue_event init_queue ev_a).event_queue init_queue.queued_events_start = ev_a) :=
  ⟨⟨by decide, (queue_event_full_noop_else_write_advance q_full ev_a).1 (by decide)⟩,
   ⟨by decide, ((queue_event_full_noop_else_write_advance init_queue ev_a).2 (by decide)).1⟩⟩

/-- C3 (the code contradicts it): on the line `2 5 6` the parser produces
no event at all and prints the Invalid diagnostic. The sscanf format
`"2 %i\n"` contains a single conversion, so the call can return at most 1;
the comparison with 2 is always false and the 2-byte branch is dead. -/
theorem parse_two_int_line_yields_invalid :
    parse_message 0 ['2', ' ', '5', ' ', '6', '\n']
      = ⟨0, false, none, false, true, .Invalid⟩ := by decide

/-- C4: any line whose first four characters are `exit` takes the first
branch of the parser: the outcome is `Exit`, no event is produced, nothing
is printed, and no later grammar rule is consulted. -/
theorem parse_exit_first_match (p1 : Int) (msg : List Char)
    (h : strncmp0 msg ['e', 'x', 'i', 't'] = true) :
    parse_message p1 msg = ⟨0, true, none, false, false, .Exit⟩ := by
  simp [parse_message, h]

/-- Witness for C4 at the line `exitNOW`. -/
theorem parse_exit_first_match_witness :
    strncmp0 ['e', 'x', 'i', 't', 'N', 'O', 'W', '\n'] ['e', 'x', 'i', 't'] = true
    ∧ parse_message 0 ['e', 'x', 'i', 't', 'N', 'O', 'W', '\n']
        = ⟨0, true, none, false, false, .Exit⟩ :=
  ⟨by decide, parse_exit_first_match 0 _ (by decide)⟩

/- ===================== parser shape lemmas ===================== -/

/-- The count of `sscanf(msg, "2 %i\n", &param[0])` is at most 1 (one
conversion in the format), so it never equals 2. -/
theorem fmt2_count_ne_two (msg : List Char) :
    ¬ (2 = (match sscanf_fmt2 msg with | some _ => 1 | none => 0)) := by
  rcases h : sscanf_fmt2 msg with _ | v <;> simp [h]

/-- Every event `parse_message` hands to `queue_event` has frame offset 0,
size 1, 2 or 3, and a buffer of exactly `size` initialized bytes. -/
theorem parse_message_queued_shape (p1 : Int) (msg : List Char) :
    ∀ e, (parse_message p1 msg).queued = some e →
      e.time = 0
      ∧ (e.size = 1 ∨ e.size = 2 ∨ e.size = 3)
      ∧ e.size ≤ 16 ∧ e.buffer.length = e.size := by
  unfold parse_message
  rw [if_neg (fmt2_count_ne_two msg)]
  repeat' split
  all_goals intro e he
  all_goals simp at he
  all_goals (subst he; simp [THREEBYTES])

/-- A line classified `Help`, `Invalid` or `Noop` enqueues nothing, does
not set the exit flag, and returns 0. -/
theorem parse_message_nonevent_shape (p1 : Int) (msg : List Char) :
    ((parse_message p1 msg).outcome = Outcome.Help
      ∨ (parse_message p1 msg).outcome = Outcome.Invalid
      ∨ (parse_message p1 msg).outcome = Outcome.Noop) →
    (parse_message p1 msg).queued = none
    ∧ (parse_message p1 msg).setExit = false
    ∧ (parse_message p1 msg).retval = 0 := by
  unfold parse_message
  repeat' split
  all_goals simp

/-- C6: every line on which the parser produces a MIDI event produces it
with frame offset (`time` field) equal to 0. -/
theorem parse_event_frame_offset_zero (p1 : Int) (msg : List Char) (e : MyMidiEvent)
    (h : (parse_message p1 msg).queued = some e) : e.time = 0 :=
  (parse_message_queued_shape p1 msg e h).1

/-- Witness for C6 at the line `1 5`. -/
theorem parse_event_frame_offset_zero_witness :
    (parse_message 0 ['1', ' ', '5', '\n']).queued = some (⟨0, 1, [5]⟩ : MyMidiEvent)
    ∧ (⟨0, 1, [5]⟩ : MyMidiEvent).time = 0 :=
  ⟨by decide, parse_event_frame_offset_zero 0 ['1', ' ', '5', '\n'] ⟨0, 1, [5]⟩ (by decide)⟩

/-- C10: every event the parser enqueues has size 1, 2 or 3, hence within
the fixed 16-byte payload capacity, and its buffer holds exactly `size`
initialized bytes. -/
theorem parse_event_size_in_bounds (p1 : Int) (msg : List Char) (e : MyMidiEvent)
    (h : (parse_message p1 msg).queued = some e) :
    (e.size = 1 ∨ e.size = 2 ∨ e.size = 3)
    ∧ e.size ≤ 16 ∧ e.buffer.length = e.size :=
  (parse_message_queued_shape p1 msg e h).2

/-- Witness for C10 at the line `CC 1 2`. -/
theorem parse_event_size_in_bounds_witness :
    (parse_message 0 ['C', 'C', ' ', '1', ' ', '2', '\n']).queued = some ev_b
    ∧ ((ev_b.size = 1 ∨ ev_b.size = 2 ∨ ev_b.size = 3)
        ∧ ev_b.size ≤ 16 ∧ ev_b.buffer.length = ev_b.size) :=
  ⟨by decide, parse_event_size_in_bounds 0 ['C', 'C', ' ', '1', ' ', '2', '\n'] ev_b (by decide)⟩

/-- C8: a line whose outcome is `Help`, `Invalid` or `Noop` leaves the event
queue (indices and all slots) unchanged and the process state flag unset;
the parser returns 0 for such lines. -/
theorem parse_nonevent_no_mutation (p1 : Int) (msg : List Char) (q : QueueState)
    (h : (parse_message p1 msg).outcome = Outcome.Help
      ∨ (parse_message p1 msg).outcome = Outcome.Invalid
      ∨ (parse_message p1 msg).outcome = Outcome.Noop) :
    apply_queue q (parse_message p1 msg) = q
    ∧ (parse_message p1 msg).setExit = false
    ∧ (parse_message p1 msg).retval = 0 := by
  obtain ⟨hq, hs, hr⟩ := parse_message_nonevent_shape p1 msg h
  exact ⟨by simp [apply_queue, hq], hs, hr⟩

/-- Witness for C8 at the line `help me` against the initial queue. -/
theorem parse_nonevent_no_mutation_witness :
    ((parse_message 0 ['h', 'e', 'l', 'p', ' ', 'm', 'e', '\n']).outcome = Outcome.Help
      ∨ (parse_message 0 ['h', 'e', 'l', 'p', ' ', 'm', 'e', '\n']).outcome = Outcome.Invalid
      ∨ (parse_message 0 ['h', 'e', 'l', 'p', ' ', 'm', 'e', '\n']).outcome = Outcome.Noop)
    ∧ (apply_queue init_queue (parse_message 0 ['h', 'e', 'l', 'p', ' ', 'm', 'e', '\n']) = init_queue
        ∧ (parse_message 0 ['h', 'e', 'l', 'p', ' ', 'm', 'e', '\n']).setExit = false
        ∧ (parse_message 0 ['h', 'e', 'l', 'p', ' ', 'm', 'e', '\n']).retval = 0) :=
  ⟨by decide,
   parse_nonevent_no_mutation 0 ['h', 'e', 'l', 'p', ' ', 'm', 'e', '\n'] init_queue (by decide)⟩

/-- A successful literal match means the input starts with that character. -/
theorem scanLit_eq_some {c : Char} {msg r : List Char} (h : scanLit c msg = some r) :
    msg = c :: r := by
  cases msg with
  | nil => exact absurd h (by simp [scanLit])
  | cons d rest =>
    simp only [scanLit] at h
    split at h
    · rename_i hbeq
      injection h with h2
      subst h2
      rw [eq_of_beq hbeq]
    · exact absurd h (by simp)

/-- C5: every line matching the `CC %i %i` format produces a 3-byte
Control-Change event: byte0 = 0xB0, byte1 = int0 & 0x7F, byte2 = int1 &
0x7F, with frame offset 0; no earlier rule can fire on such a line. -/
theorem parse_CC_control_change (p1 a b : Int) (msg : List Char)
    (h : sscanf_CC msg = some (a, b)) :
    parse_message p1 msg
      = ⟨0, false, some ⟨0, 3, [0xb0, Int.land a 0x7f, Int.land b 0x7f]⟩,
          false, false, .Event⟩ := by
  obtain ⟨r, rfl⟩ : ∃ r, msg = 'C' :: r := by
    unfold sscanf_CC at h
    rcases hc : scanLit 'C' msg with _ | r
    · rw [hc] at h; cases h
    · exact ⟨r, scanLit_eq_some hc⟩
  have h1 : strncmp0 ('C' :: r) ['e', 'x', 'i', 't'] = false := rfl
  have h2 : strncmp0 ('C' :: r) ['r', 'e', 'c', 'o', 'n', 'n', 'e', 'c', 't'] = false := rfl
  have h3 : strncmp0 ('C' :: r) ['h', 'e', 'l', 'p'] = false := rfl
  have h4 : sscanf_dot_xxx ('C' :: r) = none := rfl
  have h5 : Int.land 176 255 = 176 := by decide
  simp [parse_message, h1, h2, h3, h4, h, THREEBYTES, h5]

/-- Witness for C5 at the line `CC 1 2`: the produced event is
`{0xB0, 0x01, 0x02}` of size 3. -/
theorem parse_CC_control_change_witness :
    sscanf_CC ['C', 'C', ' ', '1', ' ', '2', '\n'] = some (1, 2)
    ∧ parse_message 0 ['C', 'C', ' ', '1', ' ', '2', '\n']
        = ⟨0, false, some ⟨0, 3, [0xb0, 1, 2]⟩, false, false, .Event⟩ :=
  ⟨by decide, by
    rw [parse_CC_control_change 0 1 2 ['C', 'C', ' ', '1', ' ', '2', '\n'] (by decide)]
    decide⟩

/-- The queue never holds 256 or more events. -/
theorem queueDist_lt (q : QueueState) : queueDist q < JACK_MIDI_QUEUE_SIZE := by
  simp only [queueDist, JACK_MIDI_QUEUE_SIZE]
  omega

/-- A non-full enqueue appends the event to the logical content, grows the
count by one, keeps the write index in range, and fixes the read index. -/
theorem queue_event_spec (q : QueueState) (me : MyMidiEvent)
    (hs : q.queued_events_start < 256) (he : q.queued_events_end < 256)
    (hnf : queueDist q ≠ 255) :
    queueList (queue_event q me) = queueList q ++ [me]
    ∧ queueDist (queue_event q me) = queueDist q + 1
    ∧ (queue_event q me).queued_events_start < 256
    ∧ (queue_event q me).queued_events_end = q.queued_events_end := by
  have hd : queueDist q = (q.queued_events_start + 256 - q.queued_events_end) % 256 := by
    simp [queueDist, JACK_MIDI_QUEUE_SIZE]
  rw [hd] at hnf
  have hfull : ¬ ((q.queued_events_start + 1) % JACK_MIDI_QUEUE_SIZE = q.queued_events_end) := by
    simp only [JACK_MIDI_QUEUE_SIZE]
    omega
  have hq' : queue_event q me =
      { q with
        event_queue := Function.update q.event_queue q.queued_events_start me,
        queued_events_start := (q.queued_events_start + 1) % JACK_MIDI_QUEUE_SIZE } := by
    unfold queue_event
    rw [if_neg hfull]
  rw [hq']
  have hdist : queueDist
      { q with
        event_queue := Function.update q.event_queue q.queued_events_start me,
        queued_events_start := (q.queued_events_start + 1) % JACK_MIDI_QUEUE_SIZE }
      = queueDist q + 1 := by
    simp only [queueDist, JACK_MIDI_QUEUE_SIZE]
    omega
  refine ⟨?_, hdist, ?_, rfl⟩
  · unfold queueList
    rw [hdist, hd, List.range_succ, List.map_append]
    have hmid : ∀ i ∈ List.range ((q.queued_events_start + 256 - q.queued_events_end) % 256),
        ({ q with
            event_queue := Function.update q.event_queue q.queued_events_start me,
            queued_events_start :=
              (q.queued_events_start + 1) % JACK_MIDI_QUEUE_SIZE }).event_queue
          ((({ q with
            event_queue := Function.update q.event_queue q.queued_events_start me,
            queued_events_start :=
              (q.queued_events_start + 1) % JACK_MIDI_QUEUE_SIZE }).queued_events_end + i)
            % JACK_MIDI_QUEUE_SIZE)
        = q.event_queue ((q.queued_events_end + i) % JACK_MIDI_QUEUE_SIZE) := by
      intro i hi
      rw [List.mem_range] at hi
      show Function.update q.event_queue q.queued_events_start me
          ((q.queued_events_end + i) % JACK_MIDI_QUEUE_SIZE) = _
      rw [Function.update_noteq]
      simp only [JACK_MIDI_QUEUE_SIZE]
      omega
    rw [List.map_congr_left hmid, ← hd]
    congr 1
    show [Function.update q.event_queue q.queued_events_start me
        ((q.queued_events_end + (q.queued_events_start + 256 - q.queued_events_end) % 256)
          % JACK_MIDI_QUEUE_SIZE)] = [me]
    have hidx : (q.queued_events_end + (q.queued_events_start + 256 - q.queued_events_end) % 256)
        % JACK_MIDI_QUEUE_SIZE = q.queued_events_start := by
      simp only [JACK_MIDI_QUEUE_SIZE]
      omega
    rw [hidx, Function.update_same]
  · simp only [JACK_MIDI_QUEUE_SIZE]
    omega

/-- With enough fuel (queue indices in range guarantee 256 is enough), the
drain loop emits exactly the logical content in FIFO order and leaves the
queue empty with the write index untouched. -/
theorem drainLoop_spec : ∀ (fuel : Nat) (q : QueueState),
    q.queued_events_start < 256 → q.queued_events_end < 256 → queueDist q ≤ fuel →
    drainLoop fuel q
      = (queueList q, { q with queued_events_end := q.queued_events_start }) := by
  intro fuel
  induction fuel with
  | zero =>
    intro q hs he hle
    obtain ⟨f, s, e⟩ := q
    have h0 : queueDist ⟨f, s, e⟩ = 0 := Nat.le_zero.mp hle
    have heq : e = s := by
      simp only [queueDist, JACK_MIDI_QUEUE_SIZE] at h0
      simp only at hs he
      omega
    subst heq
    have hql : queueList ⟨f, e, e⟩ = [] := by simp [queueList, h0]
    rw [hql]
    rfl
  | succ n ih =>
    intro q hs he hle
    obtain ⟨f, s, e⟩ := q
    simp only at hs he
    by_cases heq : e = s
    · subst heq
      have h0 : queueDist ⟨f, e, e⟩ = 0 := by
        simp only [queueDist, JACK_MIDI_QUEUE_SIZE]
        omega
      have hql : queueList ⟨f, e, e⟩ = [] := by simp [queueList, h0]
      rw [drainLoop_empty (n + 1) ⟨f, e, e⟩ rfl, hql]
    · have heq' : (⟨f, s, e⟩ : QueueState).queued_events_end
          ≠ (⟨f, s, e⟩ : QueueState).queued_events_start := heq
      have hstep : drainLoop (n + 1) ⟨f, s, e⟩
          = (f e ::
              (drainLoop n ⟨f, s, (e + 1) % JACK_MIDI_QUEUE_SIZE⟩).1,
             (drainLoop n ⟨f, s, (e + 1) % JACK_MIDI_QUEUE_SIZE⟩).2) := by
        simp only [drainLoop]
        rw [if_neg heq']
      have hd1 : 1 ≤ queueDist ⟨f, s, e⟩ := by
        simp only [queueDist, JACK_MIDI_QUEUE_SIZE]
        omega
      have hd2 : queueDist ⟨f, s, (e + 1) % JACK_MIDI_QUEUE_SIZE⟩
          = queueDist ⟨f, s, e⟩ - 1 := by
        simp only [queueDist, JACK_MIDI_QUEUE_SIZE]
        omega
      have hle' : queueDist ⟨f, s, e⟩ ≤ n + 1 := hle
      have hih := ih ⟨f, s, (e + 1) % JACK_MIDI_QUEUE_SIZE⟩
        hs (by simp only [JACK_MIDI_QUEUE_SIZE]; omega) (by rw [hd2]; omega)
      rw [hstep, hih]
      have hlist : f e :: queueList ⟨f, s, (e + 1) % JACK_MIDI_QUEUE_SIZE⟩
          = queueList ⟨f, s, e⟩ := by
        obtain ⟨k, hk⟩ : ∃ k, queueDist ⟨f, s, e⟩ = k + 1 :=
          ⟨queueDist ⟨f, s, e⟩ - 1, by omega⟩
        unfold queueList
        rw [hd2, hk, Nat.add_sub_cancel, List.range_succ_eq_map, List.map_cons, List.map_map]
        simp only
        have h00 : f ((e + 0) % JACK_MIDI_QUEUE_SIZE) = f e := by
          congr 1
          simp only [JACK_MIDI_QUEUE_SIZE]
          omega
        rw [h00]
        congr 1
        apply List.map_congr_left
        intro i hi
        rw [List.mem_range] at hi
        show f (((e + 1) % JACK_MIDI_QUEUE_SIZE + i) % JACK_MIDI_QUEUE_SIZE)
            = f ((e + Nat.succ i) % JACK_MIDI_QUEUE_SIZE)
        congr 1
        simp only [JACK_MIDI_QUEUE_SIZE]
        omega
      rw [hlist]

/-- Enqueuing a list of events, with enough capacity for all of them,
appends the list to the logical content of the queue. -/
theorem enqueue_all_spec : ∀ (l : List MyMidiEvent) (q : QueueState),
    q.queued_events_start < 256 → q.queued_events_end < 256 →
    queueDist q + l.length ≤ 255 →
    queueList (List.foldl queue_event q l) = queueList q ++ l
    ∧ (List.foldl queue_event q l).queued_events_start < 256
    ∧ (List.foldl queue_event q l).queued_events_end = q.queued_events_end := by
  intro l
  induction l with
  | nil =>
    intro q hs he hlen
    exact ⟨by simp, hs, rfl⟩
  | cons me l ih =>
    intro q hs he hlen
    simp only [List.foldl_cons, List.length_cons] at *
    have hnf : queueDist q ≠ 255 := by omega
    obtain ⟨hlist, hdist, hs', hend⟩ := queue_event_spec q me hs he hnf
    have he' : (queue_event q me).queued_events_end < 256 := by rw [hend]; exact he
    obtain ⟨hlist2, hs2, hend2⟩ := ih (queue_event q me) hs' he' (by rw [hdist]; omega)
    refine ⟨?_, hs2, by rw [hend2, hend]⟩
    rw [hlist2, hlist, List.append_assoc]
    rfl

/-- C1: FIFO round trip. Starting from an empty queue (write index equal to
read index, in range), enqueuing any sequence of at most 255 events via
`queue_event` and then running the realtime callback `process` writes
exactly those events into the cycle output buffer, in the order they were
enqueued, with no duplication and no loss. -/
theorem fifo_round_trip (l : List MyMidiEvent) (q : QueueState)
    (hempty : q.queued_events_start = q.queued_events_end)
    (hs : q.queued_events_start < JACK_MIDI_QUEUE_SIZE)
    (hlen : l.length ≤ JACK_MIDI_QUEUE_SIZE - 1) :
    (process (List.foldl queue_event q l)).1 = l := by
  simp only [JACK_MIDI_QUEUE_SIZE] at hs hlen
  have he : q.queued_events_end < 256 := by omega
  have hd0 : queueDist q = 0 := by
    simp only [queueDist, JACK_MIDI_QUEUE_SIZE]
    omega
  obtain ⟨hlist, hs', hend'⟩ := enqueue_all_spec l q hs he (by omega)
  have he' : (List.foldl queue_event q l).queued_events_end < 256 := by
    rw [hend']; exact he
  have hdrain := drainLoop_spec 256 (List.foldl queue_event q l) hs' he'
    (Nat.le_of_lt (queueDist_lt (List.foldl queue_event q l)))
  have hql : queueList q = [] := by simp [queueList, hd0]
  unfold process
  rw [show JACK_MIDI_QUEUE_SIZE = 256 from rfl, hdrain, hlist, hql]
  rfl

/-- Witness for C1: two events enqueued into the initial queue are drained
in order. -/
theorem fifo_round_trip_witness :
    init_queue.queued_events_start = init_queue.queued_events_end
    ∧ init_queue.queued_events_start < JACK_MIDI_QUEUE_SIZE
    ∧ ([ev_a, ev_b] : List MyMidiEvent).length ≤ JACK_MIDI_QUEUE_SIZE - 1
    ∧ (process (List.foldl queue_event init_queue [ev_a, ev_b])).1 = [ev_a, ev_b] :=
  ⟨rfl, by decide, by decide,
   fifo_round_trip [ev_a, ev_b] init_queue rfl (by decide) (by decide)⟩
